import Mathlib

/-!
Verification of the golden-snapshot engine of the `tuitestkit` Go package
(`snapshot.go`, concatenated into `view_test.go` in the source tree).

The engine is shallowly embedded: the filesystem is an explicit state value
(association list of file paths to contents plus a set of directories), the
Go functions `snapshotPath`, `snapshot`, `unifiedDiff`, `lcsTable` and the
public `Snapshot*` entry points become pure Lean functions, and the outcome
of a snapshot call (Created / Matched / Mismatched / Missing) is an explicit
inductive value.  I/O in the model always succeeds, so the fatal branches of
`os.MkdirAll` / `os.WriteFile` / non-`IsNotExist` read errors (which only
fire on real I/O failure) are not representable; the `os.IsNotExist` branch
is represented by `readFile` returning `none`.
-/

set_option autoImplicit false

namespace Tuitestkit

/-! ## String helpers (substring search, used to state message properties) -/

/-- Test `leadsWith pat cs`: the char sequence `cs` starts with `pat`. -/
def leadsWith : List Char → List Char → Bool
  | [], _ => true
  | _ :: _, [] => false
  | c :: cs, d :: ds => c == d && leadsWith cs ds

/-- Test `containsSeq pat hay`: `pat` occurs contiguously inside `hay`. -/
def containsSeq (pat : List Char) : List Char → Bool
  | [] => leadsWith pat []
  | c :: t => leadsWith pat (c :: t) || containsSeq pat t

/-- Substring test `strContains s pat` (models Go
`strings.Contains`). -/
def strContains (s pat : String) : Bool :=
  containsSeq pat.data s.data

/-- Case-insensitive substring test (ASCII lowering via `Char.toLower`). -/
def strContainsCI (s pat : String) : Bool :=
  containsSeq (pat.data.map Char.toLower) (s.data.map Char.toLower)

/-! ## Splitting and joining on a separator character

Models Go `strings.Split(s, sep)` for a one-character separator: splitting
around each occurrence, so `""` yields `[""]` and a trailing separator yields
a trailing empty segment. -/

/-- Split a char sequence around every occurrence of `sep`. -/
def splitChar (sep : Char) : List Char → List String
  | [] => [""]
  | c :: rest =>
    match splitChar sep rest with
    | [] => [""]
    | h :: t => if c == sep then "" :: h :: t else String.mk (c :: h.data) :: t

/-- Join strings with a separator (models `strings.Join` / path joining). -/
def joinSep (sep : String) : List String → String
  | [] => ""
  | [x] => x
  | x :: xs => x ++ sep ++ joinSep sep xs

/-! ## Path model (Go `path/filepath` on a Unix separator) -/

/-- Stack pass of the lexical path cleaning: drop empty and `.` segments,
resolve `..` against the segment stack (`out` is kept reversed). -/
def cleanSegs (rooted : Bool) : List String → List String → List String
  | out, [] => out.reverse
  | out, s :: rest =>
    if s = "" || s = "." then cleanSegs rooted out rest
    else if s = ".." then
      match out with
      | [] => if rooted then cleanSegs rooted [] rest else cleanSegs rooted [".."] rest
      | t :: out' =>
        if t = ".." then cleanSegs rooted (s :: t :: out') rest
        else cleanSegs rooted out' rest
    else cleanSegs rooted (s :: out) rest

/-- Models Go `path.Clean` / `filepath.Clean` (lexical processing of `.`,
`..`, and repeated separators). -/
def pathClean (path : String) : String :=
  if path = "" then "." else
  let rooted := match path.data with | '/' :: _ => true | _ => false
  let segs := cleanSegs rooted [] (splitChar '/' path.data)
  let out := joinSep "/" segs
  if rooted then (if out = "" then "/" else "/" ++ out)
  else (if out = "" then "." else out)

/-- Models Go `filepath.Join(a, b)`: empty elements are dropped, the rest are
joined with the separator and cleaned. -/
def filepathJoin (a b : String) : String :=
  if a = "" then (if b = "" then "" else pathClean b)
  else pathClean (a ++ "/" ++ b)

/-- Models Go `filepath.Dir`: everything before the final separator, cleaned;
`"."` when the path holds no separator. -/
def dirname (path : String) : String :=
  match (splitChar '/' path.data).dropLast with
  | [] => "."
  | segs => pathClean (joinSep "/" segs ++ "/")

/-! ## Filesystem model -/

/-- Explicit filesystem state: file contents plus the set of directories
created so far.  Paths are the exact strings the engine produces (they come
out of `pathClean`, so distinct strings mean distinct files). -/
structure FS where
  files : List (String × String)
  dirs : List String
deriving DecidableEq, Repr

/-- Models `os.ReadFile`: `none` is the `os.IsNotExist` case. -/
def readFile (fs : FS) (path : String) : Option String :=
  (fs.files.find? (fun e => e.1 == path)).map (fun e => e.2)

/-- Models `os.WriteFile`: replaces any existing file at `path` in full. -/
def writeFile (fs : FS) (path content : String) : FS :=
  { fs with files := (path, content) :: fs.files.filter (fun e => e.1 != path) }

/-- The chain of ancestor paths of `dir` (each prefix of its segment list). -/
def parentChain (dir : String) : List String :=
  let segs := splitChar '/' dir.data
  (List.range segs.length).map (fun k => joinSep "/" (segs.take (k + 1)))

/-- Models `os.MkdirAll`: creates `dir` along with any necessary parents. -/
def mkdirAll (fs : FS) (dir : String) : FS :=
  { fs with dirs := parentChain dir ++ fs.dirs }

/-! ## Diff Generator

Embedding of `lcsTable` and `unifiedDiff` from the source.  `lcsTable` builds
the classic LCS dynamic-programming table (`table[i][j]` = LCS length of the
first `i` baseline lines and first `j` candidate lines) and the backtrack of
`unifiedDiff` walks it from `table[m][n]` down to `table[0][0]`. -/

/-- Models Go `strings.Split(s, "\n")`. -/
def splitNl (s : String) : List String :=
  splitChar '\n' s.data

/-- One row of the LCS table past column `0`: `left` is the cell just
computed in this row (`table[i][j-1]`), the `prev` list starts at the
previous row's diagonal cell (`table[i-1][j-1]`, then `table[i-1][j]`, ...).
The recurrence is the source's: match takes the diagonal plus one, otherwise
the larger of the cell above (`pup`tie-winner) and the cell to the left. -/
def lcsRowAux (ai : String) (left : Nat) : List String → List Nat → List Nat
  | [], _ => []
  | bj :: brest, pdiag :: pup :: prest =>
    let v := if ai = bj then pdiag + 1 else if pup ≥ left then pup else left
    v :: lcsRowAux ai v brest (pup :: prest)
  | _ :: _, _ => []

/-- Row `i` of the LCS table (cell `0` is `0`) from row `i - 1`. -/
def lcsRow (ai : String) (b : List String) (prev : List Nat) : List Nat :=
  0 :: lcsRowAux ai 0 b prev

/-- Rows `1..m` of the LCS table, each computed from its predecessor. -/
def lcsRows (b : List String) : List String → List Nat → List (List Nat)
  | [], _ => []
  | ai :: arest, prev =>
    let row := lcsRow ai b prev
    row :: lcsRows b arest row

/-- Models the source's `lcsTable`: the `(m+1) × (n+1)` LCS DP table. -/
def lcsTable (a b : List String) : List (List Nat) :=
  let row0 := List.replicate (b.length + 1) 0
  row0 :: lcsRows b a row0

/-- Table lookup `table[i][j]` (indices produced by the backtrack are always
in bounds; out-of-bounds defaults to `0`). -/
def tget (t : List (List Nat)) (i j : Nat) : Nat :=
  (t.getD i []).getD j 0

/-- Line lookup `xs[k]` (models the Go slice index, in bounds in practice). -/
def lineAt (xs : List String) (k : Nat) : String :=
  xs.getD k ""

/-- Models `fmt.Sprintf("%4d", n)`: decimal, left-padded to width four. -/
def pad4 (n : Nat) : String :=
  let s := Nat.repr n
  if s.length < 4 then String.mk (List.replicate (4 - s.length) ' ') ++ s else s

/-- One rendered diff line: marker, then `%4d` line number, two spaces, text
(models `fmt.Sprintf(" %4d  %s", ...)` and the `+` / `-` variants). -/
def fmtDiffLine (marker : String) (n : Nat) (text : String) : String :=
  marker ++ pad4 n ++ "  " ++ text

/-- The backtrack loop of `unifiedDiff`, with explicit fuel.  The Go loop
runs `for i > 0 || j > 0` and every iteration decreases `i + j` by at least
one, so fuel `i + j` computes exactly the loop's result (see
`backtrackAux_min_fuel`).  Current Go indices `(i, j)` appear here as the
patterns `(i+1, j+1)` etc.; the emitted list is already in top-to-bottom
order (the Go code appends in reverse and then reverses). -/
def backtrackAux (t : List (List Nat)) (el al : List String) :
    Nat → Nat → Nat → List String
  | 0, _, _ => []
  | _ + 1, 0, 0 => []
  | fuel + 1, i + 1, 0 =>
    backtrackAux t el al fuel i 0 ++ [fmtDiffLine "-" (i + 1) (lineAt el i)]
  | fuel + 1, 0, j + 1 =>
    backtrackAux t el al fuel 0 j ++ [fmtDiffLine "+" (j + 1) (lineAt al j)]
  | fuel + 1, i + 1, j + 1 =>
    if lineAt el i = lineAt al j then
      backtrackAux t el al fuel i j ++ [fmtDiffLine " " (i + 1) (lineAt el i)]
    else if tget t (i + 1) j ≥ tget t i (j + 1) then
      backtrackAux t el al fuel (i + 1) j ++ [fmtDiffLine "+" (j + 1) (lineAt al j)]
    else
      backtrackAux t el al fuel i (j + 1) ++ [fmtDiffLine "-" (i + 1) (lineAt el i)]

/-- The backtrack from `(i, j)` with its exact fuel. -/
def backtrack (t : List (List Nat)) (el al : List String) (i j : Nat) : List String :=
  backtrackAux t el al (i + j) i j

/-- Models the source's `unifiedDiff`: two-line header, then the backtracked
diff lines, each followed by a newline. -/
def unifiedDiff (expected actual : String) : String :=
  let expLines := splitNl expected
  let actLines := splitNl actual
  let t := lcsTable expLines actLines
  let lines := backtrack t expLines actLines expLines.length actLines.length
  "--- expected\n+++ actual\n" ++ String.join (lines.map (fun l => l ++ "\n"))

/-! ## Comparison Engine -/

/-- Terminal state of one snapshot call.  `missing` is reported through
`t.Fatalf` (fatal), `mismatched` through `t.Errorf` (non-fatal). -/
inductive SnapOutcome where
  | created
  | matched
  | missing (msg : String)
  | mismatched (msg : String)
deriving DecidableEq, Repr

/-- Severity: only the missing-baseline branch is fatal in the model (the
other `Fatalf` branches are real-I/O failures, unrepresentable here). -/
def SnapOutcome.isFatal : SnapOutcome → Bool
  | .missing _ => true
  | _ => false

/-- Whether the outcome fails the calling test at all. -/
def SnapOutcome.isFailure : SnapOutcome → Bool
  | .missing _ => true
  | .mismatched _ => true
  | _ => false

/-- The `Fatalf` message of the missing-baseline branch (`%q` rendered as
plain double quotes, faithful for names without escape characters). -/
def missingMsg (name path : String) : String :=
  ("snapshot \"" ++ name ++ "\": golden file not found at ") ++ path
    ++ "\nRun with UPDATE_SNAPSHOTS=1 to create it."

/-- The `Errorf` message of the mismatch branch. -/
def mismatchMsg (name diff : String) : String :=
  "snapshot \"" ++ name ++ "\" mismatch:\n" ++ diff

/-- Models the source's `snapshotPath`.  The `snapshotBaseDir` override is an
explicit argument (the `snapshotBaseDir == ""` branch resolves the caller's
source directory via `runtime.Caller(callerSkip)`, which is stack
introspection and outside the model; every claim supplies the base
directory, as the package's own tests do). -/
def snapshotPath (snapshotBaseDir name : String) (_callerSkip : Nat) : String :=
  filepathJoin snapshotBaseDir (name ++ ".golden")

/-- Models the source's core `snapshot` function.  The global
`UpdateSnapshots` flag is passed as the value it holds at call time, and the
filesystem is threaded explicitly; the returned state is the filesystem
after the call. -/
def snapshot (updateSnapshots : Bool) (fs : FS) (content name base : String)
    (callerSkip : Nat) : FS × SnapOutcome :=
  let path := snapshotPath base name callerSkip
  if updateSnapshots then
    let fs := mkdirAll fs (dirname path)
    let fs := writeFile fs path content
    (fs, .created)
  else
    match readFile fs path with
    | none => (fs, .missing (missingMsg name path))
    | some expected =>
      let expectedStr := expected
      if expectedStr = content then (fs, .matched)
      else (fs, .mismatched (mismatchMsg name (unifiedDiff expectedStr content)))

/-! ## Public entry points -/

/-- The only part of `tea.Model` the snapshot functions use: `View()`. -/
structure Model where
  view : String

/-- The source's `StripANSI` delegates to the external `charmbracelet/x/ansi.Strip`; the
library function is kept abstract as the argument `ansiStrip`. -/
def StripANSI (ansiStrip : String → String) (s : String) : String :=
  ansiStrip s

/-- Models `SnapshotView`: strips ANSI from `model.View()`, `callerSkip` 3. -/
def SnapshotView (ansiStrip : String → String) (u : Bool) (fs : FS) (m : Model)
    (name base : String) : FS × SnapOutcome :=
  snapshot u fs (StripANSI ansiStrip m.view) name base 3

/-- Models `SnapshotViewRaw`: raw `model.View()`, `callerSkip` 3. -/
def SnapshotViewRaw (u : Bool) (fs : FS) (m : Model) (name base : String) :
    FS × SnapOutcome :=
  snapshot u fs m.view name base 3

/-- Models `SnapshotStr`: strips ANSI from the view string, `callerSkip` 3. -/
def SnapshotStr (ansiStrip : String → String) (u : Bool) (fs : FS)
    (view name base : String) : FS × SnapOutcome :=
  snapshot u fs (StripANSI ansiStrip view) name base 3

/-- Models `SnapshotStrRaw`: the raw view string, `callerSkip` 3. -/
def SnapshotStrRaw (u : Bool) (fs : FS) (view name base : String) :
    FS × SnapOutcome :=
  snapshot u fs view name base 3

/-- Models the package `init`: the global flag starts at the zero value
`false` and is set exactly when `os.Getenv("UPDATE_SNAPSHOTS")` is the
string `"1"` (`os.Getenv` yields `""` for an unset variable). -/
def initUpdateSnapshots (updateSnapshotsEnv : String) : Bool :=
  updateSnapshotsEnv == "1"

/-- Repeated compare-mode calls, threading the filesystem state. -/
def iterateCompare (fs : FS) (content name base : String) : Nat → List SnapOutcome
  | 0 => []
  | k + 1 =>
    let r := snapshot false fs content name base 3
    r.2 :: iterateCompare r.1 content name base k

/-! ## Helper lemmas: substring search -/

lemma leadsWith_append (p rest : List Char) : leadsWith p (p ++ rest) = true := by
  induction p with
  | nil => rfl
  | cons c cs ih => simp [leadsWith, ih]

lemma containsSeq_of_leads (p t : List Char) (h : leadsWith p t = true) :
    containsSeq p t = true := by
  cases t with
  | nil => simpa [containsSeq] using h
  | cons c t => simp [containsSeq, h]

lemma containsSeq_append_left (p a t : List Char) (h : containsSeq p t = true) :
    containsSeq p (a ++ t) = true := by
  induction a with
  | nil => simpa using h
  | cons c a ih => simp [containsSeq, ih]

/-- Any middle component of a concatenation is found by `strContains`. -/
lemma strContains_mid (a b c : String) : strContains (a ++ b ++ c) b = true := by
  unfold strContains
  rw [String.data_append, String.data_append, List.append_assoc]
  exact containsSeq_append_left _ _ _
    (containsSeq_of_leads _ _ (leadsWith_append b.data c.data))

lemma strContains_right (a b p : String) (h : strContains b p = true) :
    strContains (a ++ b) p = true := by
  unfold strContains at *
  rw [String.data_append]
  exact containsSeq_append_left _ _ _ h

lemma strContainsCI_right (a b p : String) (h : strContainsCI b p = true) :
    strContainsCI (a ++ b) p = true := by
  unfold strContainsCI at *
  rw [String.data_append, List.map_append]
  exact containsSeq_append_left _ _ _ h

/-! ## Helper lemmas: filesystem -/

lemma find?_filter_ne (l : List (String × String)) (p q : String) (h : q ≠ p) :
    (l.filter (fun e => e.1 != p)).find? (fun e => e.1 == q)
      = l.find? (fun e => e.1 == q) := by
  induction l with
  | nil => rfl
  | cons a l ih =>
    by_cases ha : a.1 = p
    · have h1 : (a.1 != p) = false := by simp [ha]
      have h2 : (a.1 == q) = false := by
        simp only [beq_eq_false_iff_ne]
        exact fun hq => h (hq.symm.trans ha)
      simp [List.filter_cons, h1, List.find?_cons, h2, ih]
    · have h1 : (a.1 != p) = true := by simp [ha]
      by_cases h2 : a.1 = q
      · have hb : (a.1 == q) = true := by simp [h2]
        simp [List.filter_cons, h1, List.find?_cons, hb]
      · have h3 : (a.1 == q) = false := by simp [h2]
        simp [List.filter_cons, h1, List.find?_cons, h3, ih]

lemma readFile_writeFile_self (fs : FS) (p c : String) :
    readFile (writeFile fs p c) p = some c := by
  simp [readFile, writeFile, List.find?_cons]

lemma readFile_writeFile_other (fs : FS) (p q c : String) (h : q ≠ p) :
    readFile (writeFile fs p c) q = readFile fs q := by
  have hpq : (p == q) = false := by
    simp only [beq_eq_false_iff_ne]
    exact fun hq => h hq.symm
  simp only [readFile, writeFile, List.find?_cons, hpq]
  rw [find?_filter_ne fs.files p q h]

/-! ## Helper lemmas: backtrack fuel -/

/-- Extra fuel beyond `i + j` never changes the backtrack's result. -/
lemma backtrackAux_fuel_add (t : List (List Nat)) (el al : List String) :
    ∀ f d i j, i + j ≤ f →
      backtrackAux t el al (f + d) i j = backtrackAux t el al f i j := by
  intro f
  induction f with
  | zero =>
    intro d i j hle
    have hi : i = 0 := by omega
    have hj : j = 0 := by omega
    subst hi; subst hj
    cases d <;> rfl
  | succ f ih =>
    intro d i j hle
    rw [show f + 1 + d = (f + d) + 1 from by omega]
    rcases i with _ | i <;> rcases j with _ | j
    · rfl
    · simp only [backtrackAux]
      rw [ih d 0 j (by omega)]
    · simp only [backtrackAux]
      rw [ih d i 0 (by omega)]
    · simp only [backtrackAux]
      by_cases h1 : lineAt el i = lineAt al j
      · rw [if_pos h1, if_pos h1, ih d i j (by omega)]
      · rw [if_neg h1, if_neg h1]
        by_cases h2 : tget t (i + 1) j ≥ tget t i (j + 1)
        · rw [if_pos h2, if_pos h2, ih d (i + 1) j (by omega)]
        · rw [if_neg h2, if_neg h2, ih d i (j + 1) (by omega)]

/-- Any sufficient fuel computes `backtrack`. -/
lemma backtrackAux_min_fuel (t : List (List Nat)) (el al : List String)
    (f i j : Nat) (h : i + j ≤ f) :
    backtrackAux t el al f i j = backtrack t el al i j := by
  have h2 : (i + j) + (f - (i + j)) = f := by omega
  calc backtrackAux t el al f i j
      = backtrackAux t el al ((i + j) + (f - (i + j))) i j := by rw [h2]
    _ = backtrackAux t el al (i + j) i j :=
        backtrackAux_fuel_add t el al (i + j) (f - (i + j)) i j (Nat.le_refl _)
    _ = backtrack t el al i j := rfl

/-- Every line the backtrack emits is a marker, a line number, two spaces and
the line text. -/
lemma backtrackAux_shape (t : List (List Nat)) (el al : List String) :
    ∀ fuel i j line, line ∈ backtrackAux t el al fuel i j →
      ∃ n s, line = fmtDiffLine " " n s ∨ line = fmtDiffLine "+" n s
        ∨ line = fmtDiffLine "-" n s := by
  intro fuel
  induction fuel with
  | zero => intro i j line h; simp [backtrackAux] at h
  | succ fuel ih =>
    intro i j line h
    rcases i with _ | i <;> rcases j with _ | j
    · simp [backtrackAux] at h
    · simp only [backtrackAux, List.mem_append, List.mem_singleton] at h
      rcases h with h | h
      · exact ih 0 j line h
      · exact ⟨j + 1, lineAt al j, Or.inr (Or.inl h)⟩
    · simp only [backtrackAux, List.mem_append, List.mem_singleton] at h
      rcases h with h | h
      · exact ih i 0 line h
      · exact ⟨i + 1, lineAt el i, Or.inr (Or.inr h)⟩
    · simp only [backtrackAux] at h
      by_cases h1 : lineAt el i = lineAt al j
      · rw [if_pos h1] at h
        rcases List.mem_append.mp h with h | h
        · exact ih i j line h
        · exact ⟨i + 1, lineAt el i, Or.inl (List.mem_singleton.mp h)⟩
      · rw [if_neg h1] at h
        by_cases h2 : tget t (i + 1) j ≥ tget t i (j + 1)
        · rw [if_pos h2] at h
          rcases List.mem_append.mp h with h | h
          · exact ih (i + 1) j line h
          · exact ⟨j + 1, lineAt al j, Or.inr (Or.inl (List.mem_singleton.mp h))⟩
        · rw [if_neg h2] at h
          rcases List.mem_append.mp h with h | h
          · exact ih i (j + 1) line h
          · exact ⟨i + 1, lineAt el i, Or.inr (Or.inr (List.mem_singleton.mp h))⟩

/-! ## Claim theorems -/

/-- Claim C1: with the Global Mode Switch (`UpdateSnapshots`) true, a
snapshot call creates every missing parent directory of the resolved path,
writes the candidate as the entire file content — fully replacing any
pre-existing baseline, whatever `fs` already held at that path — performs no
comparison, raises no failure (the outcome is `created` for every starting
state, so overwriting is never an error), and touches no other file.  I/O in
the model always succeeds, matching the claim's "when the I/O succeeds". -/
theorem snapshot_update_writes_baseline (fs : FS) (content name base : String) :
    (snapshot true fs content name base 3).2 = SnapOutcome.created
    ∧ readFile (snapshot true fs content name base 3).1 (snapshotPath base name 3)
        = some content
    ∧ (∀ d, d ∈ parentChain (dirname (snapshotPath base name 3)) →
        d ∈ (snapshot true fs content name base 3).1.dirs)
    ∧ (∀ p, p ≠ snapshotPath base name 3 →
        readFile (snapshot true fs content name base 3).1 p = readFile fs p) := by
  refine ⟨rfl, ?_, ?_, ?_⟩
  · exact readFile_writeFile_self
      (mkdirAll fs (dirname (snapshotPath base name 3))) (snapshotPath base name 3) content
  · intro d hd
    show d ∈ (writeFile (mkdirAll fs (dirname (snapshotPath base name 3)))
      (snapshotPath base name 3) content).dirs
    simp only [writeFile, mkdirAll]
    exact List.mem_append.mpr (Or.inl hd)
  · intro p hp
    exact readFile_writeFile_other
      (mkdirAll fs (dirname (snapshotPath base name 3))) (snapshotPath base name 3) p content hp

/-- Witness for C1 at a concrete state: writing `"hello"` under name
`"basic"` into an empty filesystem stores it at the resolved path and leaves
the unrelated path `"/other"` untouched. -/
theorem snapshot_update_writes_baseline_witness :
    readFile (snapshot true (FS.mk [] []) "hello" "basic" "/tmp/s" 3).1
        (snapshotPath "/tmp/s" "basic" 3) = some "hello"
    ∧ readFile (snapshot true (FS.mk [] []) "hello" "basic" "/tmp/s" 3).1 "/other"
        = readFile (FS.mk [] []) "/other" :=
  ⟨(snapshot_update_writes_baseline (FS.mk [] []) "hello" "basic" "/tmp/s").2.1,
   (snapshot_update_writes_baseline (FS.mk [] []) "hello" "basic" "/tmp/s").2.2.2
     "/other" (by decide)⟩

/-- Claim C2: in compare mode with no baseline at the resolved path, the call
fails fatally (`Fatalf`, outcome `missing`) with a message that names the
resolved path, contains the word "update" (case-insensitively — it appears
in `UPDATE_SNAPSHOTS=1`) and instructs the operator to re-run in update
mode; the filesystem is unchanged.  This holds for every candidate,
including the empty string. -/
theorem snapshot_missing_fatal (fs : FS) (content name base : String)
    (h : readFile fs (snapshotPath base name 3) = none) :
    snapshot false fs content name base 3
      = (fs, SnapOutcome.missing (missingMsg name (snapshotPath base name 3)))
    ∧ (SnapOutcome.missing (missingMsg name (snapshotPath base name 3))).isFatal = true
    ∧ strContains (missingMsg name (snapshotPath base name 3))
        (snapshotPath base name 3) = true
    ∧ strContainsCI (missingMsg name (snapshotPath base name 3)) "update" = true
    ∧ strContains (missingMsg name (snapshotPath base name 3))
        "UPDATE_SNAPSHOTS=1" = true := by
  refine ⟨?_, rfl, ?_, ?_, ?_⟩
  · simp [snapshot, h]
  · exact strContains_mid _ _ _
  · exact strContainsCI_right _ _ _ (by decide)
  · exact strContains_right _ _ _ (by decide)

/-- Witness for C2: the empty filesystem has no baseline, so the call
reports the fatal `missing` outcome with the documented message. -/
theorem snapshot_missing_fatal_witness :
    (snapshot false (FS.mk [] []) "hi" "basic" "/tmp/s" 3).2
      = SnapOutcome.missing (missingMsg "basic" (snapshotPath "/tmp/s" "basic" 3)) :=
  congrArg Prod.snd
    ((snapshot_missing_fatal (FS.mk [] []) "hi" "basic" "/tmp/s" (by decide)).1)

/-- Claim C3: in compare mode, when the stored baseline equals the candidate
exactly (string equality), the call reports `matched` — no failure, no
output — and leaves the state unchanged, so any number of repeated
compare-mode calls with the same candidate all yield `matched`. -/
theorem snapshot_compare_match_idempotent (fs : FS) (content name base : String)
    (h : readFile fs (snapshotPath base name 3) = some content) :
    snapshot false fs content name base 3 = (fs, SnapOutcome.matched)
    ∧ SnapOutcome.matched.isFailure = false
    ∧ ∀ k o, o ∈ iterateCompare fs content name base k → o = SnapOutcome.matched := by
  have h1 : snapshot false fs content name base 3 = (fs, SnapOutcome.matched) := by
    simp [snapshot, h]
  refine ⟨h1, rfl, ?_⟩
  intro k
  induction k with
  | zero => intro o ho; simp [iterateCompare] at ho
  | succ k ih =>
    intro o ho
    rw [iterateCompare, h1] at ho
    rcases List.mem_cons.mp ho with h2 | h2
    · exact h2
    · exact ih o h2

/-- Witness for C3 at a concrete state holding the baseline `"hello"`. -/
theorem snapshot_compare_match_idempotent_witness :
    snapshot false (FS.mk [("/tmp/s/basic.golden", "hello")] []) "hello" "basic" "/tmp/s" 3
      = (FS.mk [("/tmp/s/basic.golden", "hello")] [], SnapOutcome.matched) :=
  (snapshot_compare_match_idempotent (FS.mk [("/tmp/s/basic.golden", "hello")] [])
    "hello" "basic" "/tmp/s" (by decide)).1

/-- Claim C4: an update-mode call with `(name, content)` followed immediately
by a compare-mode call with the same pair yields `matched` — the write/read
round-trip through the baseline store is exact, for every content (line
separators included) and every starting state. -/
theorem snapshot_update_then_compare_matched (fs : FS) (content name base : String) :
    (snapshot true fs content name base 3).2 = SnapOutcome.created
    ∧ snapshot false (snapshot true fs content name base 3).1 content name base 3
        = ((snapshot true fs content name base 3).1, SnapOutcome.matched) := by
  refine ⟨rfl, ?_⟩
  have hr : readFile
      (writeFile (mkdirAll fs (dirname (snapshotPath base name 3)))
        (snapshotPath base name 3) content)
      (snapshotPath base name 3) = some content :=
    readFile_writeFile_self (mkdirAll fs (dirname (snapshotPath base name 3)))
      (snapshotPath base name 3) content
  simp [snapshot, hr]

/-- Claim C5: each step of the diff backtrack from `table[m][n]` emits a
context line and moves diagonally when the current baseline and candidate
lines are equal; otherwise it emits an addition (consuming a candidate-only
line) exactly when the candidate-consuming cell `table[i][j-1]` is
greater than or equal to the baseline-consuming cell `table[i-1][j]` (so a
tie favors the addition), and a removal otherwise.  Go's current indices
`(i, j)` are the Lean patterns `(i+1, j+1)`.  Determinism of `unifiedDiff`
is immediate: it is a pure function of its two inputs. -/
theorem backtrack_step_cases (t : List (List Nat)) (el al : List String) (i j : Nat) :
    (lineAt el i = lineAt al j →
      backtrack t el al (i + 1) (j + 1)
        = backtrack t el al i j ++ [fmtDiffLine " " (i + 1) (lineAt el i)])
    ∧ (lineAt el i ≠ lineAt al j →
      (tget t i (j + 1) ≤ tget t (i + 1) j →
        backtrack t el al (i + 1) (j + 1)
          = backtrack t el al (i + 1) j ++ [fmtDiffLine "+" (j + 1) (lineAt al j)])
      ∧ (tget t (i + 1) j < tget t i (j + 1) →
        backtrack t el al (i + 1) (j + 1)
          = backtrack t el al i (j + 1) ++ [fmtDiffLine "-" (i + 1) (lineAt el i)])) := by
  have hunf : backtrack t el al (i + 1) (j + 1)
      = backtrackAux t el al ((i + j + 1) + 1) (i + 1) (j + 1) := by
    show backtrackAux t el al ((i + 1) + (j + 1)) (i + 1) (j + 1) = _
    rw [show (i + 1) + (j + 1) = (i + j + 1) + 1 from by omega]
  refine ⟨fun heq => ?_, fun hne => ⟨fun hge => ?_, fun hlt => ?_⟩⟩
  · rw [hunf]
    simp only [backtrackAux]
    rw [if_pos heq, backtrackAux_min_fuel t el al (i + j + 1) i j (by omega)]
  · rw [hunf]
    simp only [backtrackAux]
    rw [if_neg hne, if_pos hge,
      backtrackAux_min_fuel t el al (i + j + 1) (i + 1) j (by omega)]
  · rw [hunf]
    simp only [backtrackAux]
    rw [if_neg hne, if_neg (by omega),
      backtrackAux_min_fuel t el al (i + j + 1) i (j + 1) (by omega)]

/-- Witness for C5: at the unequal pair `"x"` / `"y"` with tied LCS values
(both 0), the backtrack emits the addition, not the removal. -/
theorem backtrack_step_cases_witness :
    backtrack (lcsTable ["x"] ["y"]) ["x"] ["y"] 1 1
      = backtrack (lcsTable ["x"] ["y"]) ["x"] ["y"] 1 0 ++ [fmtDiffLine "+" 1 "y"] :=
  ((backtrack_step_cases (lcsTable ["x"] ["y"]) ["x"] ["y"] 0 0).2
    (by decide)).1 (by decide)

/-- Claim C6: every rendered diff line is a marker — a space for context,
`+` for additions, `-` for removals — followed by a line number and the line
text, after the two-line expected/actual header; the numbers are 1-based
relative to the line's own side (additions carry the candidate index `j`,
removals the baseline index `i`, as `backtrack_step_cases` shows).  In
particular, for baseline `"a\nb\nc"` and candidate `"a\nX\nc"` the diff
shows `-` for `"b"` at position 2 and `+` for `"X"` at position 2, with
`"a"` and `"c"` as context. -/
theorem unifiedDiff_line_format :
    (∀ e a, ∃ rest, unifiedDiff e a = "--- expected\n+++ actual\n" ++ rest)
    ∧ (∀ t el al i j line, line ∈ backtrack t el al i j →
        ∃ n s, line = fmtDiffLine " " n s ∨ line = fmtDiffLine "+" n s
          ∨ line = fmtDiffLine "-" n s)
    ∧ unifiedDiff "a\nb\nc" "a\nX\nc"
        = "--- expected\n+++ actual\n    1  a\n-   2  b\n+   2  X\n    3  c\n" :=
  ⟨fun e a => ⟨_, rfl⟩,
   fun t el al i j line h => backtrackAux_shape t el al (i + j) i j line h,
   by decide⟩

/-- Witness for C6's line-shape component at a concrete emitted line. -/
theorem unifiedDiff_line_format_witness :
    ∃ n s, fmtDiffLine "-" 1 "" = fmtDiffLine " " n s
      ∨ fmtDiffLine "-" 1 "" = fmtDiffLine "+" n s
      ∨ fmtDiffLine "-" 1 "" = fmtDiffLine "-" n s :=
  unifiedDiff_line_format.2.1 [] [] [] 1 0 (fmtDiffLine "-" 1 "") (by decide)

/-- Counterexample to claim C7: the engine performs no sanitization.  The
name `"a/b"` — which contains a path separator — is used verbatim: it
appears unchanged inside the resolved path, and the resolved path is the
same nested path that the separator-free name `"b"` yields under the deeper
directory `"/tmp/x/a"`, so the name is not transformed into a
filesystem-safe basename. -/
theorem snapshotPath_no_sanitize_counterexample :
    snapshotPath "/tmp/x" "a/b" 1 = "/tmp/x/a/b.golden"
    ∧ strContains (snapshotPath "/tmp/x" "a/b" 1) "a/b" = true
    ∧ snapshotPath "/tmp/x" "a/b" 1 = snapshotPath "/tmp/x/a" "b" 1 := by
  decide

/-- Claim C7 as amended: no sanitization is applied; the resolved path is
`filepath.Join(dir, name + ".golden")` with the caller's name used verbatim,
so a name containing a path separator produces a nested path rather than a
transformed basename. -/
theorem snapshotPath_verbatim (base name : String) (k : Nat) (h : base ≠ "") :
    snapshotPath base name k = pathClean (base ++ "/" ++ (name ++ ".golden"))
    ∧ snapshotPath "/tmp/x" "note/sub" 1 = "/tmp/x/note/sub.golden" := by
  refine ⟨?_, by decide⟩
  simp [snapshotPath, filepathJoin, h]

/-- Witness for the amended C7 at a concrete base directory and name. -/
theorem snapshotPath_verbatim_witness :
    snapshotPath "/ws" "n" 2 = pathClean ("/ws" ++ "/" ++ ("n" ++ ".golden")) :=
  (snapshotPath_verbatim "/ws" "n" 2 (by decide)).1

/-- Counterexample to claim C8: the `init` function only honors the exact
value `"1"` of `UPDATE_SNAPSHOTS`; the truthy-looking values `"true"` and
`"yes"` do not enable update mode. -/
theorem initUpdateSnapshots_counterexample :
    initUpdateSnapshots "true" = false ∧ initUpdateSnapshots "yes" = false
    ∧ initUpdateSnapshots "1" = true := by
  decide

/-- Claim C8 as amended: at process start the Global Mode Switch is set from
`UPDATE_SNAPSHOTS`, and it is enabled exactly when that variable holds the
string `"1"` — no other truthy value counts.  The switch also remains the
directly settable flag `UpdateSnapshots`, and each call reads the value it
holds at call time (in the model, the Boolean passed to `snapshot`). -/
theorem initUpdateSnapshots_exactly_one (v : String) :
    initUpdateSnapshots v = true ↔ v = "1" := by
  simp [initUpdateSnapshots]

/-- Witness for the amended C8 at the value `"1"`. -/
theorem initUpdateSnapshots_exactly_one_witness : initUpdateSnapshots "1" = true :=
  (initUpdateSnapshots_exactly_one "1").mpr rfl

/-- Claim C9: the four public entry points all reduce to the single core
`snapshot` (with `callerSkip` 3), differing only in whether `StripANSI` is
applied first: `SnapshotStr t v n = SnapshotStrRaw t (StripANSI v) n` and
`SnapshotView t m n = SnapshotStrRaw t (StripANSI m.View()) n`, for every
ANSI-stripping function. -/
theorem entry_points_reduce_to_snapshot (strip : String → String) (u : Bool)
    (fs : FS) (v name base : String) (m : Model) :
    SnapshotStr strip u fs v name base = SnapshotStrRaw u fs (StripANSI strip v) name base
    ∧ SnapshotView strip u fs m name base
        = SnapshotStrRaw u fs (StripANSI strip m.view) name base
    ∧ SnapshotViewRaw u fs m name base = SnapshotStrRaw u fs m.view name base
    ∧ SnapshotStrRaw u fs v name base = snapshot u fs v name base 3 :=
  ⟨rfl, rfl, rfl, rfl⟩

/-- Claim C10: whenever the Global Mode Switch is false, a snapshot call
performs no write, directory creation or deletion: the filesystem component
of the result equals the input state under every outcome (matched,
mismatched or missing). -/
theorem snapshot_compare_preserves_fs (fs : FS) (content name base : String) :
    (snapshot false fs content name base 3).1 = fs := by
  simp only [snapshot]
  cases h : readFile fs (snapshotPath base name 3) with
  | none => simp
  | some e => by_cases he : e = content <;> simp [he]

end Tuitestkit
